import Mathlib

/-!
Shallow embedding of `src/electron.py`, a command-line conversational
assistant, together with proofs about its settings store, history store and
session loop.  Python strings are modelled as Lean `String`s (well-formed
Unicode), files as explicit values, and every fallible operation returns an
`Option`/`Except`.  Each definition is translated from the source function of
the same name; restrictions of the model (ASCII-only case folding, canonical
JSON lines) are recorded in the doc comment of the definition concerned.
-/

/-- Models Python `str.isspace` membership for the ASCII whitespace
characters stripped by `str.strip()` / split by `str.split()`.  (Python also
treats some non-ASCII code points as whitespace; none of the constants of the
program contain any, so the model restricts to ASCII.) -/
def pyIsSpace (c : Char) : Bool :=
  c = ' ' || c = '\t' || c = '\n' || c = '\r' || c = '\x0b' || c = '\x0c'

/-- Models Python `s.strip()`: remove leading and trailing whitespace. -/
def pyStrip (s : String) : String :=
  ⟨((s.data.dropWhile pyIsSpace).reverse.dropWhile pyIsSpace).reverse⟩

/-- Accumulator-style splitter over the characters of a line: emits the
maximal runs of non-whitespace characters in order. -/
def splitWsAux : List Char → List Char → List String
  | [], acc => if acc = [] then [] else [⟨acc.reverse⟩]
  | c :: cs, acc =>
    if pyIsSpace c then
      if acc = [] then splitWsAux cs []
      else ⟨acc.reverse⟩ :: splitWsAux cs []
    else splitWsAux cs (c :: acc)

/-- Models Python `s.split()` with no argument: split on whitespace runs,
discarding empty pieces. -/
def pySplit (s : String) : List String :=
  splitWsAux s.data []

/-- Models Python `s.lower()` on ASCII letters (the command words the
program compares against are all ASCII). -/
def pyLower (s : String) : String :=
  ⟨s.data.map Char.toLower⟩

/-- Models the Python slice `l[i:]` for an arbitrary integer index:
a nonnegative `i` drops the first `i` elements, a negative `i` keeps the
last `-i` elements (saturating at the ends, as Python slices do). -/
def pySliceFrom {α : Type} (l : List α) (i : Int) : List α :=
  if 0 ≤ i then l.drop i.toNat else l.drop (l.length - (-i).toNat)

/-- Value of a list of ASCII digits read in base 10. -/
def digitsVal (ds : List Char) : Nat :=
  ds.foldl (fun a c => a * 10 + (c.toNat - 48)) 0

/-- Models Python `int(token)` on a whitespace-free token: an optional sign
followed by one or more ASCII digits; anything else raises `ValueError`,
modelled as `none`.  (Python additionally accepts underscores between digits
and non-ASCII digits; the program only ever receives ASCII tokens.) -/
def pyInt (s : String) : Option Int :=
  match s.data with
  | '+' :: ds =>
    if ds ≠ [] && ds.all (fun c => c.isDigit) then some (digitsVal ds) else none
  | '-' :: ds =>
    if ds ≠ [] && ds.all (fun c => c.isDigit) then some (-(digitsVal ds : Int)) else none
  | ds =>
    if ds ≠ [] && ds.all (fun c => c.isDigit) then some (digitsVal ds) else none

/-- One conversation turn, the dictionary `{"role": ..., "content": ...}`
of the source (`Turn` in the specification). -/
structure Turn where
  role : String
  content : String
deriving DecidableEq

/-- Lower-case hexadecimal digit for `n < 16`, as produced by Python's
`'\\u{0:04x}'` formatting in `json.dumps`. -/
def hexDigit (n : Nat) : Char :=
  if n < 10 then Char.ofNat (48 + n) else Char.ofNat (87 + n)

/-- Six-character escape `\uXXXX` for a code unit `n < 0x10000`. -/
def uEsc (n : Nat) : List Char :=
  ['\\', 'u', hexDigit (n / 4096 % 16), hexDigit (n / 256 % 16),
   hexDigit (n / 16 % 16), hexDigit (n % 16)]

/-- Escape of one character inside a JSON string literal, as Python's
`json.dumps` with its default `ensure_ascii=True` produces it: `"` and `\`
get two-character escapes, the five named control characters get their short
escapes, printable ASCII (0x20..0x7e) passes through, everything else becomes
`\uXXXX` (a surrogate pair for code points above 0xFFFF). -/
def escChar (c : Char) : List Char :=
  if c = '"' then ['\\', '"']
  else if c = '\\' then ['\\', '\\']
  else if c = '\n' then ['\\', 'n']
  else if c = '\r' then ['\\', 'r']
  else if c = '\t' then ['\\', 't']
  else if c.toNat = 8 then ['\\', 'b']
  else if c.toNat = 12 then ['\\', 'f']
  else if 0x20 ≤ c.toNat ∧ c.toNat ≤ 0x7e then [c]
  else if c.toNat < 0x10000 then uEsc c.toNat
  else uEsc (0xd800 + (c.toNat - 0x10000) / 0x400) ++
       uEsc (0xdc00 + (c.toNat - 0x10000) % 0x400)

/-- Escape of a whole string body (no surrounding quotes). -/
def escString (cs : List Char) : List Char :=
  cs.flatMap escChar

/-- Serialization of one `Turn` exactly as `json.dumps(interaction)` renders
the dictionary `{"role": r, "content": c}`: fixed key order, the default
`", "` / `": "` separators, `ensure_ascii` escaping. -/
def dumps (t : Turn) : String :=
  ⟨"\x7b\"role\": \"".data ++ escString t.role.data ++
   ('"' :: ", \"content\": \"".data) ++ escString t.content.data ++
   ('"' :: ['\x7d'])⟩

/-- Value of one hexadecimal digit character, upper or lower case. -/
def parseHexDigit (c : Char) : Option Nat :=
  if '0' ≤ c ∧ c ≤ '9' then some (c.toNat - 48)
  else if 'a' ≤ c ∧ c ≤ 'f' then some (c.toNat - 87)
  else if 'A' ≤ c ∧ c ≤ 'F' then some (c.toNat - 55)
  else none

/-- One scanned element of a JSON string body: a character read directly
(raw input character or short backslash escape) or the code unit of one
`\uXXXX` escape, kept as a number so that surrogate pairing can look at the
next escape exactly as Python's scanner does. -/
inductive JUnit where
  | raw (c : Char)
  | esc (n : Nat)
deriving DecidableEq

/-- First stage of the string-body scanner of `json.loads` (strict mode):
consume characters up to the closing quote, rejecting raw control
characters (below 0x20), decoding the short backslash escapes, and keeping
each `\uXXXX` escape as its numeric code unit.  Returns the scanned units
and the unconsumed input. -/
def scanJString : List Char → Option (List JUnit × List Char)
  | [] => none
  | c :: rest =>
    if c = '"' then some ([], rest)
    else if c = '\\' then
      match rest with
      | [] => none
      | e :: rest1 =>
        if e = 'u' then
          match rest1 with
          | h1 :: h2 :: h3 :: h4 :: rest2 =>
            match parseHexDigit h1, parseHexDigit h2, parseHexDigit h3, parseHexDigit h4 with
            | some d1, some d2, some d3, some d4 =>
              (scanJString rest2).map fun p =>
                (JUnit.esc (d1 * 4096 + d2 * 256 + d3 * 16 + d4) :: p.1, p.2)
            | _, _, _, _ => none
          | _ => none
        else if e = '"' then (scanJString rest1).map fun p => (JUnit.raw '"' :: p.1, p.2)
        else if e = '\\' then (scanJString rest1).map fun p => (JUnit.raw '\\' :: p.1, p.2)
        else if e = '/' then (scanJString rest1).map fun p => (JUnit.raw '/' :: p.1, p.2)
        else if e = 'b' then (scanJString rest1).map fun p => (JUnit.raw '\x08' :: p.1, p.2)
        else if e = 'f' then (scanJString rest1).map fun p => (JUnit.raw '\x0c' :: p.1, p.2)
        else if e = 'n' then (scanJString rest1).map fun p => (JUnit.raw '\n' :: p.1, p.2)
        else if e = 'r' then (scanJString rest1).map fun p => (JUnit.raw '\r' :: p.1, p.2)
        else if e = 't' then (scanJString rest1).map fun p => (JUnit.raw '\t' :: p.1, p.2)
        else none
    else if c.toNat < 0x20 then none
    else (scanJString rest).map fun p => (JUnit.raw c :: p.1, p.2)

/-- Second stage of the string-body scanner: turn the scanned units into
characters, combining a high-surrogate `\uXXXX` escape that is immediately
followed by a low-surrogate escape into one code point, as Python's scanner
does.  (Python tolerates a lone surrogate escape, producing a string that
is not well-formed Unicode; Lean strings cannot represent those, so the
model rejects them.  `dumps` never emits lone surrogates.) -/
def combineUnits : List JUnit → Option (List Char)
  | [] => some []
  | JUnit.raw c :: rest => (combineUnits rest).map fun s => c :: s
  | JUnit.esc n :: JUnit.esc m :: rest2 =>
    if 0xd800 ≤ n ∧ n < 0xdc00 then
      if 0xdc00 ≤ m ∧ m < 0xe000 then
        (combineUnits rest2).map fun s =>
          Char.ofNat (0x10000 + (n - 0xd800) * 0x400 + (m - 0xdc00)) :: s
      else none
    else if 0xdc00 ≤ n ∧ n < 0xe000 then none
    else (combineUnits (JUnit.esc m :: rest2)).map fun s => Char.ofNat n :: s
  | [JUnit.esc n] =>
    if 0xd800 ≤ n ∧ n < 0xe000 then none
    else some [Char.ofNat n]
  | JUnit.esc n :: JUnit.raw c :: rest =>
    if 0xd800 ≤ n ∧ n < 0xe000 then none
    else (combineUnits (JUnit.raw c :: rest)).map fun s => Char.ofNat n :: s

/-- Parser for the body of a JSON string literal, following Python
`json.loads` in strict mode: both scanner stages composed.  Stops at the
closing quote and returns the decoded characters together with the
unconsumed input. -/
def parseJString (cs : List Char) : Option (List Char × List Char) :=
  match scanJString cs with
  | none => none
  | some (us, rest) =>
    match combineUnits us with
    | none => none
    | some s => some (s, rest)

/-- Consume an exact literal prefix of the input, or fail. -/
def dropLit : List Char → List Char → Option (List Char)
  | [], cs => some cs
  | l :: ls, c :: cs => if c = l then dropLit ls cs else none
  | _ :: _, [] => none

/-- Parser for one serialized turn line, the canonical shape produced by
`dumps` (which is the only shape `json.dumps` emits for these
dictionaries): `{"role": "...", "content": "..."}` with nothing after the
closing brace.  `json.loads` accepts more general JSON on a line; the
claims proved below only ever apply it to lines of this canonical shape. -/
def parseTurnChars (cs : List Char) : Option Turn :=
  (dropLit "\x7b\"role\": \"".data cs).bind fun r1 =>
    (parseJString r1).bind fun q1 =>
      (dropLit ", \"content\": \"".data q1.2).bind fun q2 =>
        (parseJString q2).bind fun q3 =>
          if q3.2 = ['\x7d'] then some ⟨⟨q1.1⟩, ⟨q3.1⟩⟩ else none

/-- Parse of one stripped history line as a `Turn` (`json.loads(line)`). -/
def loadsTurn (s : String) : Option Turn :=
  parseTurnChars s.data

/-- Parse of every line of a history file, modelling the list comprehension
of `load_history`: a single `json.JSONDecodeError` aborts the whole load. -/
def loadsAll : List String → Option (List Turn)
  | [] => some []
  | l :: ls =>
    match loadsTurn l, loadsAll ls with
    | some t, some ts => some (t :: ts)
    | _, _ => none

/-- Constant `BASE_URL` of the source. -/
def BASE_URL : String := "https://api.aimlapi.com/v1"

/-- Constant `INTERACTION_HISTORY_LIMIT` of the source: the configured bound
of the in-memory Interaction Window. -/
def INTERACTION_HISTORY_LIMIT : Nat := 10

/-- Constant `REQUIRED_KEYS` of the source, in its order. -/
def REQUIRED_KEYS : List String :=
  ["model", "api_key", "system_message", "assistant_name", "user_name"]

/-- Constant `DEFAULT_SETTINGS` of the source, as the association list of a
JSON object (all values of the program's settings are strings). -/
def DEFAULT_SETTINGS : List (String × String) :=
  [("model", "gpt-4o-mini"),
   ("api_key", ""),
   ("system_message",
    "You are \x7bassistant_name\x7d, a command line AI assistant for \x7buser_name\x7d who knows everything."),
   ("assistant_name", "Electron"),
   ("user_name", "User")]

/-- Constant `EXIT_COMMANDS` of the source. -/
def EXIT_COMMANDS : List String :=
  ["q", "quit", "exit", "bye", "close", "stop", "end", "terminate", "leave"]

/-- Lookup of a key in a settings document, modelling `config[key]` /
`key in config` on the parsed JSON object. -/
def cfgGet (config : List (String × String)) (k : String) : Option String :=
  (config.find? fun p => p.1 = k).map Prod.snd

/-- State of the settings file on disk as `load_settings` and
`write_default_config` observe it: absent, present but empty (size 0),
present with invalid JSON, or present with a valid JSON object.  Writing a
JSON object and reading it back yields the same object, so a written
document is modelled as `valid`. -/
inductive SettingsFile where
  | absent
  | emptyFile
  | corrupt
  | valid (config : List (String × String))
deriving DecidableEq

/-- Translation of `write_default_config`: write `DEFAULT_SETTINGS` only when
the file does not exist or is empty; otherwise leave the file alone (the
failure of a write is logged, not raised, and leaves the file unchanged,
which the state `absent`/`emptyFile` already covers conservatively only in
the success case; no claim below depends on a failed write). -/
def write_default_config : SettingsFile → SettingsFile
  | .absent => .valid DEFAULT_SETTINGS
  | .emptyFile => .valid DEFAULT_SETTINGS
  | f => f

/-- Translation of `load_settings`: returns the loaded document or the
raised `ValueError` message, together with the settings file as the call
leaves it.  `FileNotFoundError` and `json.JSONDecodeError` (an empty file
raises the latter) select the default path; a missing required key raises
`ValueError` with the message built in the source. -/
def load_settings : SettingsFile → Except String (List (String × String)) × SettingsFile
  | .valid config =>
    match REQUIRED_KEYS.find? (fun k => (cfgGet config k).isNone) with
    | some k =>
      (.error ("Missing required key: \x27" ++ k ++ "\x27 in settings."), .valid config)
    | none => (.ok config, .valid config)
  | .absent => (.ok DEFAULT_SETTINGS, write_default_config .absent)
  | .emptyFile => (.ok DEFAULT_SETTINGS, write_default_config .emptyFile)
  | .corrupt => (.ok DEFAULT_SETTINGS, write_default_config .corrupt)

/-- Translation of `load_history`.  The history file is modelled as its list
of lines (`for line in file`); a missing or size-zero file is the empty
list.  As in the source, the `[-limit:]` slice is applied to the raw line
list before blank lines are filtered out, and `if limit` is Python
truthiness, so `limit = some 0` reads everything (`selectLines` is that
slice selection, `load_history` the whole call). -/
def selectLines (stripped : List String) : Option Int → List String
  | some l => if l ≠ 0 then pySliceFrom stripped (-l) else stripped
  | none => stripped

/-- Body of `load_history`; see its doc comment above. -/
def load_history (fileLines : List String) (limit : Option Int) : List Turn :=
  if fileLines = [] then []
  else
    match loadsAll ((selectLines (fileLines.map pyStrip) limit).filter
        fun line => line ≠ "") with
    | some turns => turns
    | none => []

/-- Translation of `write_to_history`: `file.write(json.dumps(interaction)
+ "\n")` followed by `file.flush()`.  `dumps` never contains a newline
(lemma `newline_not_mem_dumps` below), so one call appends exactly one line
to the file's line decomposition. -/
def write_to_history (file : List String) (interaction : Turn) : List String :=
  file ++ [dumps interaction]

/-- The `OpenAI(api_key=..., base_url=...)` client object, reduced to the
two construction arguments the source passes. -/
structure OpenAIClient where
  api_key : String
  base_url : String
deriving DecidableEq

/-- Translation of `initialize_client`. -/
def initialize_client (api_key : String) : OpenAIClient :=
  ⟨api_key, BASE_URL⟩

/-- Translation of lines 306-318 of `main`: bind the local `api_key` to
`config["api_key"]`, fill `config["api_key"]` from the environment variable
or the interactive prompt when it is empty (Python `or`: an unset variable
is `None`, an empty value is falsy, both fall through to the prompt), then
construct the client from the local `api_key`.  `env` is
`os.environ.get("API_KEY")` and `prompted` abstracts the key returned by
`request_for_api_key()`.  Returns the constructed client and the final
value of `config["api_key"]`. -/
def mainStartup (configApiKey : String) (env : Option String) (prompted : String) :
    OpenAIClient × String :=
  let api_key := configApiKey
  let newConfigApiKey :=
    if configApiKey = "" then
      match env with
      | some v => if v ≠ "" then v else prompted
      | none => prompted
    else configApiKey
  (initialize_client api_key, newConfigApiKey)

/-- Result of `exit_assistant(status)`: `sys.exit(status)`. -/
inductive TurnOutcome where
  | exited (code : Nat)
  | next (window : List Turn) (file : List String)
deriving DecidableEq

/-- Translation of `exit_assistant` (the printed farewell is rendering,
out of scope): terminate the process with the given status. -/
def exit_assistant (status : Nat) : TurnOutcome :=
  .exited status

/-- One pass of the `while True` loop of `main`, together with the value of
`interaction_history` after each statement that updates it.  The input
`user_message` is the non-empty line in hand; `completion` is the outcome of
`generate_response` (`some reply`, or `none` when the call raises).  An
empty token list makes the guard `command[0] in EXIT_COMMANDS` raise
`IndexError`, which escapes to the outer handler of `main` and exits with
code 1.  The `help` and `history` meta-commands print but change neither
the window nor the file.  On the message path the user turn is appended to
the window and written to the file; on success the assistant turn is
appended and written and the window is truncated with
`interaction_history[-INTERACTION_HISTORY_LIMIT:]`; on failure the sentinel
`{"role": "assistant", "content": "null"}` is written to the file only. -/
structure TurnTrace where
  outcome : TurnOutcome
  updates : List (List Turn)
deriving DecidableEq

/-- Loop body of `main`; see `TurnTrace`. -/
def mainLoopStep (limit : Nat) (window : List Turn) (file : List String)
    (user_message : String) (completion : Option String) : TurnTrace :=
  match pySplit (pyLower user_message) with
  | [] => ⟨.exited 1, []⟩
  | tok :: _ =>
    if tok ∈ EXIT_COMMANDS then ⟨exit_assistant 0, []⟩
    else if tok = "help" then ⟨.next window file, []⟩
    else if tok = "history" then ⟨.next window file, []⟩
    else
      let user_interaction : Turn := ⟨"user", user_message⟩
      let w1 := window ++ [user_interaction]
      let f1 := write_to_history file user_interaction
      match completion with
      | some assistant_message =>
        let ai_interaction : Turn := ⟨"assistant", assistant_message⟩
        let w2 := w1 ++ [ai_interaction]
        let w3 := pySliceFrom w2 (-(limit : Int))
        ⟨.next w3 (write_to_history f1 ai_interaction), [w1, w2, w3]⟩
      | none =>
        ⟨.next w1 (write_to_history f1 ⟨"assistant", "null"⟩), [w1]⟩

/-- Outcome-only view of one loop pass. -/
def stepTurn (limit : Nat) (window : List Turn) (file : List String)
    (user_message : String) (completion : Option String) : TurnOutcome :=
  (mainLoopStep limit window file user_message completion).outcome

/-- Run of a sequence of loop passes, threading the window and the file;
stops at an exit. -/
def runTurns (limit : Nat) (window : List Turn) (file : List String) :
    List (String × Option String) → List Turn × List String
  | [] => (window, file)
  | (m, c) :: rest =>
    match mainLoopStep limit window file m c with
    | ⟨.next w f, _⟩ => runTurns limit w f rest
    | ⟨.exited _, _⟩ => (window, file)

/-- First whitespace-delimited token of the line, lowercased, lies in the
exit-command set (the pattern `case command if command[0] in
EXIT_COMMANDS`). -/
def firstTokenIsExit (user_message : String) : Bool :=
  match pySplit (pyLower user_message) with
  | [] => false
  | tok :: _ => EXIT_COMMANDS.contains tok

/-- The line dispatches to the message path: it has a first token and that
token is no meta-command. -/
def isMessageLine (user_message : String) : Bool :=
  match pySplit (pyLower user_message) with
  | [] => false
  | tok :: _ => !EXIT_COMMANDS.contains tok && tok ≠ "help" && tok ≠ "history"

/-- Rendering of `toString` for the `f"## Last {n} messages"` heading
argument (Python renders `None` as `"None"`; that branch is unreachable,
the heading for `n is None` is chosen earlier). -/
def intStr : Option Int → String
  | some v => toString v
  | none => "None"

/-- Translation of `print_history`, with the console modelled as the list
of content strings handed to `msg` (the `[bold]`/colour markup and Markdown
rendering are the out-of-scope formatting layer; the content argument is
kept verbatim).  The emptiness notice is decided on the full history before
the `history[-n:]` slice, and the headings mirror the
`if n == 1 / elif n == 0 or n is None / else` chain of the source. -/
def print_history (user_name : String) (assistant_name : String)
    (fileLines : List String) (n : Option Int) : List String :=
  let history := load_history fileLines none
  if history = [] then
    ["No conversations found. Start a discussion to create history!"]
  else
    let sliced :=
      match n with
      | some v => pySliceFrom history (-v)
      | none => history
    let heading :=
      if n = some 1 then "## Last message"
      else if n = some 0 ∨ n = none then "## Full conversation history"
      else "## Last " ++ intStr n ++ " messages"
    [heading, "***"] ++
      (sliced.map fun entry =>
        "**" ++ (if entry.role = "user" then user_name else assistant_name) ++
        "**: " ++ entry.content) ++ ["***"]

theorem parseHexDigit_hexDigit (k : Nat) (h : k < 16) :
    parseHexDigit (hexDigit k) = some k := by
  interval_cases k <;> decide

theorem char_toNat_valid (c : Char) :
    c.toNat < 0xd800 ∨ (0xe000 ≤ c.toNat ∧ c.toNat < 0x110000) := by
  have h := c.valid
  simp only [UInt32.isValidChar, Nat.isValidChar] at h
  exact h

theorem char_eq_of_toNat {c : Char} {n : Nat} (h : c.toNat = n) : c = Char.ofNat n := by
  have h2 := Char.ofNat_toNat c
  rw [h] at h2
  exact h2.symm

/-- Units the scanner produces for `escChar c`, branch for branch. -/
def escUnits (c : Char) : List JUnit :=
  if c = '"' then [JUnit.raw '"']
  else if c = '\\' then [JUnit.raw '\\']
  else if c = '\n' then [JUnit.raw '\n']
  else if c = '\r' then [JUnit.raw '\r']
  else if c = '\t' then [JUnit.raw '\t']
  else if c.toNat = 8 then [JUnit.raw '\x08']
  else if c.toNat = 12 then [JUnit.raw '\x0c']
  else if 0x20 ≤ c.toNat ∧ c.toNat ≤ 0x7e then [JUnit.raw c]
  else if c.toNat < 0x10000 then [JUnit.esc c.toNat]
  else [JUnit.esc (0xd800 + (c.toNat - 0x10000) / 0x400),
        JUnit.esc (0xdc00 + (c.toNat - 0x10000) % 0x400)]

theorem scanJString_uEsc (n : Nat) (hn : n < 0x10000) (rest : List Char) :
    scanJString (uEsc n ++ rest) =
      (scanJString rest).map fun p => (JUnit.esc n :: p.1, p.2) := by
  have e1 := parseHexDigit_hexDigit (n / 4096 % 16) (Nat.mod_lt _ (by norm_num))
  have e2 := parseHexDigit_hexDigit (n / 256 % 16) (Nat.mod_lt _ (by norm_num))
  have e3 := parseHexDigit_hexDigit (n / 16 % 16) (Nat.mod_lt _ (by norm_num))
  have e4 := parseHexDigit_hexDigit (n % 16) (Nat.mod_lt _ (by norm_num))
  have hrec : n / 4096 % 16 * 4096 + n / 256 % 16 * 256 + n / 16 % 16 * 16 + n % 16 = n := by
    omega
  rw [uEsc]
  rw [scanJString.eq_def]
  simp [e1, e2, e3, e4, hrec]

theorem scan_plain (c : Char) (rest : List Char) (h1 : c ≠ '"') (h2 : c ≠ '\\')
    (h3 : ¬ c.toNat < 0x20) :
    scanJString (c :: rest) = (scanJString rest).map fun p => (JUnit.raw c :: p.1, p.2) := by
  rw [scanJString.eq_def]
  simp [h1, h2, h3]

theorem scanJString_escChar (c : Char) (rest : List Char) :
    scanJString (escChar c ++ rest) =
      (scanJString rest).map fun p => (escUnits c ++ p.1, p.2) := by
  by_cases hq : c = '"'
  · subst hq
    rw [escChar, escUnits]
    rw [scanJString.eq_def]
    simp
  by_cases hb : c = '\\'
  · subst hb
    rw [escChar, escUnits]
    rw [scanJString.eq_def]
    simp
  by_cases hn : c = '\n'
  · subst hn
    rw [escChar, escUnits]
    norm_num
    rw [scanJString.eq_def]
    simp
  by_cases hr : c = '\r'
  · subst hr
    rw [escChar, escUnits]
    norm_num
    rw [scanJString.eq_def]
    simp
  by_cases ht : c = '\t'
  · subst ht
    rw [escChar, escUnits]
    norm_num
    rw [scanJString.eq_def]
    simp
  by_cases h8 : c.toNat = 8
  · rw [char_eq_of_toNat h8]
    rw [escChar, escUnits]
    rw [scanJString.eq_def]
    simp
  by_cases h12 : c.toNat = 12
  · rw [char_eq_of_toNat h12]
    rw [escChar, escUnits]
    rw [scanJString.eq_def]
    simp
  by_cases hpr : 0x20 ≤ c.toNat ∧ c.toNat ≤ 0x7e
  · simp only [escChar, escUnits, if_neg hq, if_neg hb, if_neg hn, if_neg hr, if_neg ht,
      if_neg h8, if_neg h12, if_pos hpr]
    rw [List.cons_append, List.nil_append, scan_plain c rest hq hb (by omega)]
    simp
  by_cases hlow : c.toNat < 0x10000
  · simp only [escChar, escUnits, if_neg hq, if_neg hb, if_neg hn, if_neg hr, if_neg ht,
      if_neg h8, if_neg h12, if_neg hpr, if_pos hlow]
    rw [scanJString_uEsc _ hlow]
    simp
  · simp only [escChar, escUnits, if_neg hq, if_neg hb, if_neg hn, if_neg hr, if_neg ht,
      if_neg h8, if_neg h12, if_neg hpr, if_neg hlow]
    have hval := char_toNat_valid c
    rw [List.append_assoc]
    rw [scanJString_uEsc _ (by omega)]
    rw [scanJString_uEsc _ (by omega)]
    simp [Option.map_map]
    rfl

theorem combineUnits_cons_raw (c : Char) (us : List JUnit) :
    combineUnits (JUnit.raw c :: us) = (combineUnits us).map fun s => c :: s := rfl

theorem combineUnits_cons_esc (n : Nat) (us : List JUnit)
    (hval : ¬(0xd800 ≤ n ∧ n < 0xe000)) :
    combineUnits (JUnit.esc n :: us) = (combineUnits us).map fun s => Char.ofNat n :: s := by
  have h1 : ¬(0xd800 ≤ n ∧ n < 0xdc00) := by omega
  have h2 : ¬(0xdc00 ≤ n ∧ n < 0xe000) := by omega
  match us with
  | [] => simp [combineUnits, hval]
  | JUnit.raw c :: us2 => simp [combineUnits, hval]
  | JUnit.esc m :: us2 => simp [combineUnits, h1, h2]

theorem combineUnits_pair (n m : Nat) (hn : 0xd800 ≤ n ∧ n < 0xdc00)
    (hm : 0xdc00 ≤ m ∧ m < 0xe000) (us : List JUnit) :
    combineUnits (JUnit.esc n :: JUnit.esc m :: us) =
      (combineUnits us).map fun s =>
        Char.ofNat (0x10000 + (n - 0xd800) * 0x400 + (m - 0xdc00)) :: s := by
  simp [combineUnits, hn, hm]

theorem combineUnits_escUnits (c : Char) (us : List JUnit) :
    combineUnits (escUnits c ++ us) = (combineUnits us).map fun s => c :: s := by
  by_cases hq : c = '"'
  · subst hq
    simp [escUnits, combineUnits_cons_raw]
  by_cases hb : c = '\\'
  · subst hb
    simp [escUnits, combineUnits_cons_raw]
  by_cases hn : c = '\n'
  · subst hn
    simp [escUnits, combineUnits_cons_raw]
  by_cases hr : c = '\r'
  · subst hr
    simp [escUnits, combineUnits_cons_raw]
  by_cases ht : c = '\t'
  · subst ht
    simp [escUnits, combineUnits_cons_raw]
  by_cases h8 : c.toNat = 8
  · have hc : c = '\x08' := by
      rw [char_eq_of_toNat h8]
    subst hc
    simp [escUnits, combineUnits_cons_raw]
  by_cases h12 : c.toNat = 12
  · have hc : c = '\x0c' := by
      rw [char_eq_of_toNat h12]
    subst hc
    simp [escUnits, combineUnits_cons_raw]
  by_cases hpr : 0x20 ≤ c.toNat ∧ c.toNat ≤ 0x7e
  · simp only [escUnits, if_neg hq, if_neg hb, if_neg hn, if_neg hr, if_neg ht,
      if_neg h8, if_neg h12, if_pos hpr]
    simp [combineUnits_cons_raw]
  by_cases hlow : c.toNat < 0x10000
  · simp only [escUnits, if_neg hq, if_neg hb, if_neg hn, if_neg hr, if_neg ht,
      if_neg h8, if_neg h12, if_neg hpr, if_pos hlow]
    have hval := char_toNat_valid c
    rw [List.cons_append, List.nil_append, combineUnits_cons_esc _ _ (by omega)]
    rw [Char.ofNat_toNat]
  · simp only [escUnits, if_neg hq, if_neg hb, if_neg hn, if_neg hr, if_neg ht,
      if_neg h8, if_neg h12, if_neg hpr, if_neg hlow]
    have hval := char_toNat_valid c
    rw [List.cons_append, List.cons_append, List.nil_append]
    rw [combineUnits_pair _ _ (by omega) (by omega)]
    have harith : 0x10000 + (0xd800 + (c.toNat - 0x10000) / 0x400 - 0xd800) * 0x400 +
        (0xdc00 + (c.toNat - 0x10000) % 0x400 - 0xdc00) = c.toNat := by omega
    rw [harith, Char.ofNat_toNat]

theorem scanJString_escString (s : List Char) (rest : List Char) :
    scanJString (escString s ++ '"' :: rest) = some (s.flatMap escUnits, rest) := by
  induction s with
  | nil =>
    rw [escString]
    simp only [List.flatMap_nil, List.nil_append]
    rw [scanJString.eq_def]
    simp
  | cons c cs ih =>
    rw [escString] at ih ⊢
    rw [List.flatMap_cons, List.append_assoc, scanJString_escChar, ih]
    simp [List.flatMap_cons]

theorem combineUnits_flatMap (s : List Char) :
    combineUnits (s.flatMap escUnits) = some s := by
  induction s with
  | nil => rfl
  | cons c cs ih =>
    rw [List.flatMap_cons, combineUnits_escUnits, ih]
    rfl

theorem parseJString_escString (s : List Char) (rest : List Char) :
    parseJString (escString s ++ '"' :: rest) = some (s, rest) := by
  rw [parseJString, scanJString_escString]
  simp [combineUnits_flatMap]

theorem dropLit_append (lit cs : List Char) : dropLit lit (lit ++ cs) = some cs := by
  induction lit with
  | nil => rfl
  | cons l ls ih => simp [dropLit, ih]

theorem loadsTurn_dumps (t : Turn) : loadsTurn (dumps t) = some t := by
  have d1 : ∀ cs : List Char,
      dropLit "\x7b\"role\": \"".data
        ('\x7b' :: '"' :: 'r' :: 'o' :: 'l' :: 'e' :: '"' :: ':' :: ' ' :: '"' :: cs) =
        some cs := fun cs => rfl
  have d2 : ∀ cs : List Char,
      dropLit ", \"content\": \"".data
        (',' :: ' ' :: '"' :: 'c' :: 'o' :: 'n' :: 't' :: 'e' :: 'n' :: 't' :: '"' :: ':' ::
          ' ' :: '"' :: cs) = some cs := fun cs => rfl
  rw [loadsTurn, dumps, parseTurnChars]
  simp only [List.append_assoc, List.cons_append, List.nil_append]
  simp [d1, d2, parseJString_escString]

theorem pyStrip_of_sandwich (c d : Char) (l : List Char)
    (hc : pyIsSpace c = false) (hd : pyIsSpace d = false) :
    pyStrip ⟨c :: l ++ [d]⟩ = ⟨c :: l ++ [d]⟩ := by
  rw [pyStrip]
  simp [List.dropWhile_cons, hc, hd, List.reverse_append]

theorem dumps_data_eq (t : Turn) :
    dumps t = ⟨'\x7b' :: (("\"role\": \"".data ++ escString t.role.data ++
      ('"' :: ", \"content\": \"".data) ++ escString t.content.data ++ ['"']) ++ ['\x7d'])⟩ := by
  rw [dumps]
  congr 1
  simp [List.append_assoc]

theorem pyStrip_dumps (t : Turn) : pyStrip (dumps t) = dumps t := by
  rw [dumps_data_eq]
  exact pyStrip_of_sandwich _ _ _ (by decide) (by decide)

theorem dumps_ne_empty (t : Turn) : dumps t ≠ "" := by
  rw [dumps_data_eq]
  intro h
  have h2 := congrArg String.data h
  simp at h2

theorem hexDigit_ne_newline (k : Nat) (h : k < 16) : hexDigit k ≠ '\n' := by
  interval_cases k <;> decide

theorem newline_not_mem_uEsc (n : Nat) : '\n' ∉ uEsc n := by
  have g1 := hexDigit_ne_newline (n / 4096 % 16) (Nat.mod_lt _ (by norm_num))
  have g2 := hexDigit_ne_newline (n / 256 % 16) (Nat.mod_lt _ (by norm_num))
  have g3 := hexDigit_ne_newline (n / 16 % 16) (Nat.mod_lt _ (by norm_num))
  have g4 := hexDigit_ne_newline (n % 16) (Nat.mod_lt _ (by norm_num))
  simp [uEsc]
  exact ⟨fun h => absurd h.symm g1, fun h => absurd h.symm g2,
    fun h => absurd h.symm g3, fun h => absurd h.symm g4⟩

theorem newline_not_mem_escChar (c : Char) : '\n' ∉ escChar c := by
  rw [escChar]
  split_ifs with hq hb hn hr ht h8 h12 hpr hlow
  · decide
  · decide
  · decide
  · decide
  · decide
  · decide
  · decide
  · simp
    intro h
    exact hn h.symm
  · exact newline_not_mem_uEsc _
  · simp
    exact ⟨newline_not_mem_uEsc _, newline_not_mem_uEsc _⟩

theorem newline_not_mem_escString (s : List Char) : '\n' ∉ escString s := by
  rw [escString]
  simp only [List.mem_flatMap, not_exists, not_and]
  intro c _ hc
  exact newline_not_mem_escChar c hc

/-- One serialized turn is one line: its text contains no newline, so the
`file.write(json.dumps(interaction) + "\n")` of `write_to_history` adds
exactly one line to the history file. -/
theorem newline_not_mem_dumps (t : Turn) : '\n' ∉ (dumps t).data := by
  intro h
  rw [dumps] at h
  simp [List.mem_append] at h
  rcases h with h | h
  · exact newline_not_mem_escString _ h
  · exact newline_not_mem_escString _ h

theorem loadsAll_map_dumps (ts : List Turn) : loadsAll (ts.map dumps) = some ts := by
  induction ts with
  | nil => rfl
  | cons t ts ih => simp [loadsAll, loadsTurn_dumps, ih]

theorem loadsAll_length {ls : List String} {ts : List Turn} (h : loadsAll ls = some ts) :
    ts.length = ls.length := by
  induction ls generalizing ts with
  | nil =>
    rw [loadsAll] at h
    cases h
    rfl
  | cons l ls ih =>
    rw [loadsAll] at h
    cases hl : loadsTurn l with
    | none => rw [hl] at h; cases h
    | some t =>
      rw [hl] at h
      cases hr : loadsAll ls with
      | none => rw [hr] at h; cases h
      | some ts2 =>
        rw [hr] at h
        cases h
        simp [ih hr]

theorem loadsAll_drop {ls : List String} {ts : List Turn} (h : loadsAll ls = some ts)
    (j : Nat) : loadsAll (ls.drop j) = some (ts.drop j) := by
  induction ls generalizing ts j with
  | nil =>
    rw [loadsAll] at h
    cases h
    simp [loadsAll]
  | cons l ls ih =>
    rw [loadsAll] at h
    cases hl : loadsTurn l with
    | none => rw [hl] at h; cases h
    | some t =>
      rw [hl] at h
      cases hr : loadsAll ls with
      | none => rw [hr] at h; cases h
      | some ts2 =>
        rw [hr] at h
        cases h
        cases j with
        | zero => simp [loadsAll, hl, hr]
        | succ j => simpa using ih hr j

theorem foldl_write_to_history (ts : List Turn) (file : List String) :
    ts.foldl write_to_history file = file ++ ts.map dumps := by
  induction ts generalizing file with
  | nil => simp
  | cons t ts ih => simp [List.foldl_cons, write_to_history, ih]

theorem isMessageLine_spec (m : String) (hm : isMessageLine m = true) :
    ∃ tok rest, pySplit (pyLower m) = tok :: rest ∧
      tok ∉ EXIT_COMMANDS ∧ tok ≠ "help" ∧ tok ≠ "history" := by
  rw [isMessageLine] at hm
  cases hsp : pySplit (pyLower m) with
  | nil => rw [hsp] at hm; cases hm
  | cons tok rest =>
    rw [hsp] at hm
    simp at hm
    exact ⟨tok, rest, rfl, hm.1.1, hm.1.2, hm.2⟩

theorem mainLoopStep_message_failure (limit : Nat) (window : List Turn)
    (file : List String) (m : String) (hm : isMessageLine m = true) :
    mainLoopStep limit window file m none =
      ⟨.next (window ++ [⟨"user", m⟩])
         (file ++ [dumps ⟨"user", m⟩, dumps ⟨"assistant", "null"⟩]),
       [window ++ [⟨"user", m⟩]]⟩ := by
  obtain ⟨tok, rest, hsp, h1, h2, h3⟩ := isMessageLine_spec m hm
  rw [mainLoopStep, hsp]
  simp [h1, h2, h3, write_to_history]

theorem mainLoopStep_message_success (limit : Nat) (window : List Turn)
    (file : List String) (m reply : String) (hm : isMessageLine m = true) :
    mainLoopStep limit window file m (some reply) =
      ⟨.next (pySliceFrom (window ++ [⟨"user", m⟩] ++ [⟨"assistant", reply⟩]) (-(limit : Int)))
         (file ++ [dumps ⟨"user", m⟩, dumps ⟨"assistant", reply⟩]),
       [window ++ [⟨"user", m⟩], window ++ [⟨"user", m⟩] ++ [⟨"assistant", reply⟩],
        pySliceFrom (window ++ [⟨"user", m⟩] ++ [⟨"assistant", reply⟩]) (-(limit : Int))]⟩ := by
  obtain ⟨tok, rest, hsp, h1, h2, h3⟩ := isMessageLine_spec m hm
  rw [mainLoopStep, hsp]
  simp [h1, h2, h3, write_to_history]

theorem pySliceFrom_lastN_length {α : Type} (l : List α) (limit : Nat) (hpos : 0 < limit) :
    (pySliceFrom l (-(limit : Int))).length ≤ limit := by
  rw [pySliceFrom]
  rw [if_neg (by omega)]
  simp
  omega

/-- C1: the claim fails on the code.  With `api_key` empty in the loaded
settings and the environment variable set (here to `"sk-env"`), `main`
stores the environment value in `config["api_key"]`, but the client is
constructed from the local variable `api_key`, which was bound to the empty
`config["api_key"]` before provisioning — so the Completion Client's
credential is `""`, not the environment-supplied one, whatever
`request_for_api_key` would return. -/
theorem c1_env_key_not_bound_to_client (prompted : String) :
    (mainStartup "" (some "sk-env") prompted).2 = "sk-env" ∧
    (mainStartup "" (some "sk-env") prompted).1.api_key = "" ∧
    (mainStartup "" (some "sk-env") prompted).1.api_key ≠ "sk-env" := by
  refine ⟨rfl, rfl, ?_⟩
  show ("" : String) ≠ "sk-env"
  decide

/-- C2 (counterexample): starting from an empty window with the configured
limit 10, five successful message turns leave the window at length 10, and
the user-turn append of the sixth turn is an update of the window after
which its length is 11 > 10 — the window does not stay within the limit
after every update. -/
theorem c2_counterexample :
    ((mainLoopStep INTERACTION_HISTORY_LIMIT
        (runTurns INTERACTION_HISTORY_LIMIT [] [] (List.replicate 5 ("m", some "r"))).1
        (runTurns INTERACTION_HISTORY_LIMIT [] [] (List.replicate 5 ("m", some "r"))).2
        "m" (some "r")).updates.any
      fun w => decide (INTERACTION_HISTORY_LIMIT < w.length)) = true := by
  decide

/-- C2 (amended): the bound is restored at the truncation point at the end
of every successful message turn: whatever the window held before the turn,
after a successful completion the window has length ≤ the (positive)
configured limit.  Between the user-turn append and that truncation, and
after a failed completion, the length can exceed the limit (see the
counterexample). -/
theorem c2_window_truncated_after_success (limit : Nat) (hpos : 0 < limit)
    (window : List Turn) (file : List String) (m reply : String)
    (hm : isMessageLine m = true) :
    ∃ w f, stepTurn limit window file m (some reply) = .next w f ∧ w.length ≤ limit := by
  rw [stepTurn, mainLoopStep_message_success limit window file m reply hm]
  exact ⟨_, _, rfl, pySliceFrom_lastN_length _ limit hpos⟩

/-- Witness for C2 (amended) at a concrete turn. -/
theorem c2_window_truncated_after_success_witness :
    0 < INTERACTION_HISTORY_LIMIT ∧ isMessageLine "hello" = true ∧
    ∃ w f, stepTurn INTERACTION_HISTORY_LIMIT [] [] "hello" (some "hi") = .next w f ∧
      w.length ≤ INTERACTION_HISTORY_LIMIT :=
  ⟨by decide, by decide,
    c2_window_truncated_after_success INTERACTION_HISTORY_LIMIT (by decide) [] []
      "hello" "hi" (by decide)⟩

/-- C4: when the completion call raises on a message turn, the user turn has
already been appended to the log, the sentinel assistant turn with content
`"null"` is appended after it, and the loop continues (`.next`, not
`.exited`) with the next prompt. -/
theorem c4_failure_persists_and_continues (limit : Nat) (window : List Turn)
    (file : List String) (m : String) (hm : isMessageLine m = true) :
    stepTurn limit window file m none =
      .next (window ++ [⟨"user", m⟩])
        (file ++ [dumps ⟨"user", m⟩, dumps ⟨"assistant", "null"⟩]) := by
  rw [stepTurn, mainLoopStep_message_failure limit window file m hm]

/-- Witness for C4 at a concrete turn. -/
theorem c4_failure_persists_and_continues_witness :
    isMessageLine "hello" = true ∧
    stepTurn 10 [] [] "hello" none =
      .next [⟨"user", "hello"⟩]
        [dumps ⟨"user", "hello"⟩, dumps ⟨"assistant", "null"⟩] := by
  refine ⟨by decide, ?_⟩
  have h := c4_failure_persists_and_continues 10 [] [] "hello" (by decide)
  simpa using h

/-- C8: a line whose first whitespace-delimited token, compared
case-insensitively, lies in the exit-command set makes the loop call
`exit_assistant()` — exit code 0 — and the result does not depend on the
completion argument, so no completion call is consulted for that line. -/
theorem c8_exit_token_exits_zero (limit : Nat) (window : List Turn)
    (file : List String) (m : String) (completion : Option String)
    (h : firstTokenIsExit m = true) :
    stepTurn limit window file m completion = .exited 0 := by
  rw [firstTokenIsExit] at h
  cases hsp : pySplit (pyLower m) with
  | nil => rw [hsp] at h; cases h
  | cons tok rest =>
    rw [hsp] at h
    rw [stepTurn, mainLoopStep, hsp]
    simp at h
    simp [h]
    rfl

/-- Witness for C8 at the concrete line `"Exit now"`. -/
theorem c8_exit_token_exits_zero_witness :
    firstTokenIsExit "Exit now" = true ∧
    stepTurn 10 [] [] "Exit now" (some "ignored") = .exited 0 :=
  ⟨by decide, c8_exit_token_exits_zero 10 [] [] "Exit now" (some "ignored") (by decide)⟩

/-- C9: on a completion failure the sentinel assistant turn goes to the
on-disk log only: the window gains exactly the user turn, while the log
gains the serialized forms of the window's new entries plus one extra
sentinel line — window and log diverge by exactly that sentinel entry. -/
theorem c9_sentinel_only_in_log (limit : Nat) (window : List Turn)
    (file : List String) (m : String) (hm : isMessageLine m = true) :
    ∃ w f, stepTurn limit window file m none = .next w f ∧
      w = window ++ [⟨"user", m⟩] ∧
      f = file ++ (w.drop window.length).map dumps ++ [dumps ⟨"assistant", "null"⟩] := by
  rw [stepTurn, mainLoopStep_message_failure limit window file m hm]
  refine ⟨_, _, rfl, rfl, ?_⟩
  simp

/-- Witness for C9 at a concrete turn. -/
theorem c9_sentinel_only_in_log_witness :
    isMessageLine "hello" = true ∧
    (∃ w f, stepTurn 10 [⟨"user", "earlier"⟩] ["line0"] "hello" none = .next w f ∧
      w = [⟨"user", "earlier"⟩] ++ [⟨"user", "hello"⟩] ∧
      f = ["line0"] ++ (w.drop 1).map dumps ++ [dumps ⟨"assistant", "null"⟩]) :=
  ⟨by decide, by
    have h := c9_sentinel_only_in_log 10 [⟨"user", "earlier"⟩] ["line0"] "hello" (by decide)
    simpa using h⟩

theorem filter_ne_empty_eq_self {ls : List String} (h : ∀ l ∈ ls, l ≠ "") :
    (ls.filter fun line => line ≠ "") = ls := by
  induction ls with
  | nil => rfl
  | cons l ls ih =>
    have hl := h l (by simp)
    simp [List.filter_cons, hl]
    exact fun a ha => h a (List.mem_cons_of_mem l ha)

/-- C3 (counterexample): a history file whose second line is blank.
`loadAll` parses the single entry, so the last 1 entry of `loadAll` is that
entry and `k = 1 ≤ total`; but `loadTail(path, 1)` slices the raw line list
first, keeps only the blank line, filters it out and returns no entries at
all — not the last 1 entry of `loadAll`. -/
theorem c3_counterexample :
    load_history [dumps ⟨"user", "hi"⟩, ""] none = [⟨"user", "hi"⟩] ∧
    load_history [dumps ⟨"user", "hi"⟩, ""] (some 1) = [] ∧
    load_history [dumps ⟨"user", "hi"⟩, ""] (some 1) ≠
      load_history [dumps ⟨"user", "hi"⟩, ""] none := by
  refine ⟨by decide, by decide, by decide⟩

/-- C3 (amended): over history files with no blank lines (every file
`write_to_history` produces is one) whose lines all parse, `loadTail(path,
k)` for `k ≥ 1` returns exactly the last `k` entries of `loadAll(path)`
when `k ≤ total`, and all entries when `k ≥ total` — both cases expressed
as dropping `total - k` leading entries.  With blank lines present the
`[-limit:]` slice is applied to raw lines before the blank filter and
entries can be lost (see the counterexample). -/
theorem c3_loadTail_amended (fileLines : List String) (ts : List Turn) (k : Int)
    (hk : 1 ≤ k)
    (hblank : ∀ l ∈ fileLines, pyStrip l ≠ "")
    (hparse : loadsAll (fileLines.map pyStrip) = some ts) :
    load_history fileLines none = ts ∧
    load_history fileLines (some k) = ts.drop (ts.length - k.toNat) := by
  by_cases hnil : fileLines = []
  · subst hnil
    rw [List.map_nil] at hparse
    rw [show loadsAll [] = some [] from rfl] at hparse
    cases hparse
    exact ⟨rfl, by simp [load_history]⟩
  have hblank2 : ∀ l ∈ fileLines.map pyStrip, l ≠ "" := by
    intro l hl
    obtain ⟨x, hx, rfl⟩ := List.mem_map.mp hl
    exact hblank x hx
  have hlen : ts.length = (fileLines.map pyStrip).length := loadsAll_length hparse
  constructor
  · rw [load_history, if_neg hnil]
    rw [show selectLines (fileLines.map pyStrip) none = fileLines.map pyStrip from rfl]
    rw [filter_ne_empty_eq_self hblank2, hparse]
  · rw [load_history, if_neg hnil]
    rw [selectLines]
    rw [if_pos (by omega : k ≠ 0)]
    rw [pySliceFrom, if_neg (by omega : ¬ (0 : Int) ≤ -k)]
    have hneg : (-(-k)).toNat = k.toNat := by omega
    rw [hneg]
    have hsub : ∀ l ∈ (fileLines.map pyStrip).drop ((fileLines.map pyStrip).length - k.toNat),
        l ≠ "" := fun l hl => hblank2 l (List.drop_subset _ _ hl)
    rw [filter_ne_empty_eq_self hsub]
    rw [loadsAll_drop hparse]
    rw [hlen]

/-- Witness for C3 (amended) on a concrete two-line file with `k = 1`. -/
theorem c3_loadTail_amended_witness :
    (1 : Int) ≤ 1 ∧
    (∀ l ∈ [dumps ⟨"user", "hi"⟩, dumps ⟨"assistant", "yo"⟩], pyStrip l ≠ "") ∧
    loadsAll ([dumps ⟨"user", "hi"⟩, dumps ⟨"assistant", "yo"⟩].map pyStrip) =
      some [⟨"user", "hi"⟩, ⟨"assistant", "yo"⟩] ∧
    (load_history [dumps ⟨"user", "hi"⟩, dumps ⟨"assistant", "yo"⟩] none =
        [⟨"user", "hi"⟩, ⟨"assistant", "yo"⟩] ∧
      load_history [dumps ⟨"user", "hi"⟩, dumps ⟨"assistant", "yo"⟩] (some 1) =
        ([⟨"user", "hi"⟩, ⟨"assistant", "yo"⟩] : List Turn).drop
          (([⟨"user", "hi"⟩, ⟨"assistant", "yo"⟩] : List Turn).length - (1 : Int).toNat)) :=
  ⟨by decide, by decide, by decide,
    c3_loadTail_amended [dumps ⟨"user", "hi"⟩, dumps ⟨"assistant", "yo"⟩]
      [⟨"user", "hi"⟩, ⟨"assistant", "yo"⟩] 1 (by decide) (by decide) (by decide)⟩

/-- C5: a settings document that parses but misses at least one required
key makes `load_settings` raise the `ValueError` whose message names a
required key that is indeed missing (the first such key in
`REQUIRED_KEYS` order), instead of returning any document — defaults are
not substituted on this path. -/
theorem c5_missing_key_raises (config : List (String × String))
    (h : ∃ k ∈ REQUIRED_KEYS, cfgGet config k = none) :
    ∃ k, k ∈ REQUIRED_KEYS ∧ cfgGet config k = none ∧
      (load_settings (.valid config)).1 =
        .error ("Missing required key: \x27" ++ k ++ "\x27 in settings.") := by
  obtain ⟨k, hk, hnone⟩ := h
  have hsome : (REQUIRED_KEYS.find? fun q => (cfgGet config q).isNone).isSome := by
    rw [List.find?_isSome]
    exact ⟨k, hk, by simp [hnone]⟩
  obtain ⟨k0, hfind⟩ := Option.isSome_iff_exists.mp hsome
  have hmem : k0 ∈ REQUIRED_KEYS := List.mem_of_find?_eq_some hfind
  have hp := List.find?_some hfind
  refine ⟨k0, hmem, by simpa using hp, ?_⟩
  rw [load_settings, hfind]

/-- Witness for C5 on a document holding only `model`. -/
theorem c5_missing_key_raises_witness :
    (∃ k ∈ REQUIRED_KEYS, cfgGet [("model", "gpt-4o-mini")] k = none) ∧
    ∃ k, k ∈ REQUIRED_KEYS ∧ cfgGet [("model", "gpt-4o-mini")] k = none ∧
      (load_settings (.valid [("model", "gpt-4o-mini")])).1 =
        .error ("Missing required key: \x27" ++ k ++ "\x27 in settings.") :=
  ⟨⟨"api_key", by decide, by decide⟩,
    c5_missing_key_raises [("model", "gpt-4o-mini")] ⟨"api_key", by decide, by decide⟩⟩

/-- C6: an absent settings file makes `load_settings` return the default
document (with `model = "gpt-4o-mini"` and `api_key = ""`) and write that
same document to disk, and a subsequent load of the written file returns
the identical document without touching the file. -/
theorem c6_absent_defaults_round_trip :
    load_settings .absent = (.ok DEFAULT_SETTINGS, .valid DEFAULT_SETTINGS) ∧
    cfgGet DEFAULT_SETTINGS "model" = some "gpt-4o-mini" ∧
    cfgGet DEFAULT_SETTINGS "api_key" = some "" ∧
    load_settings (.valid DEFAULT_SETTINGS) =
      (.ok DEFAULT_SETTINGS, .valid DEFAULT_SETTINGS) := by
  refine ⟨rfl, by decide, by decide, rfl⟩

/-- Round trip of a whole history: loading the serialized lines of a turn
list recovers the list. -/
theorem load_history_map_dumps (ts : List Turn) :
    load_history (ts.map dumps) none = ts := by
  cases ts with
  | nil => rfl
  | cons t ts =>
    rw [load_history, if_neg (by simp)]
    rw [show selectLines (((t :: ts).map dumps).map pyStrip) none =
      ((t :: ts).map dumps).map pyStrip from rfl]
    have hstr : ((t :: ts).map dumps).map pyStrip = (t :: ts).map dumps := by
      rw [List.map_map]
      exact List.map_congr_left fun x _ => pyStrip_dumps x
    rw [hstr]
    rw [filter_ne_empty_eq_self fun l hl => by
      obtain ⟨x, _, rfl⟩ := List.mem_map.mp hl
      exact dumps_ne_empty x]
    rw [loadsAll_map_dumps]

/-- C7: any sequence of turns written one at a time by `write_to_history`
to an initially empty history file is read back by `load_history` with no
limit as exactly the same sequence, in order. -/
theorem c7_append_then_load_round_trip (ts : List Turn) :
    load_history (ts.foldl write_to_history []) none = ts := by
  rw [foldl_write_to_history, List.nil_append]
  exact load_history_map_dumps ts

/-- C10: `history N` with a negative parsed count `N` and non-empty stored
history does not fail: `print_history` slices `history[-N:]` with `-N`
positive, i.e. it drops the first `|N|` entries and renders all the rest,
under the heading `## Last N messages` that shows the negative number; an
empty remainder yields the headings with no entries (never the
no-conversations notice, which is decided before slicing). -/
theorem c10_negative_history_count (u a : String) (fileLines : List String)
    (v : Int) (hv : v < 0) (hne : load_history fileLines none ≠ []) :
    print_history u a fileLines (some v) =
      ["## Last " ++ toString v ++ " messages", "***"] ++
        ((load_history fileLines none).drop (-v).toNat).map (fun entry =>
          "**" ++ (if entry.role = "user" then u else a) ++ "**: " ++ entry.content) ++
        ["***"] := by
  have h1 : ¬((some v : Option Int) = some 1) := by
    simp
    omega
  have h2 : ¬((some v : Option Int) = some 0 ∨ (some v : Option Int) = none) := by
    simp
    omega
  simp only [print_history, if_neg hne, if_neg h1, if_neg h2, intStr]
  rw [pySliceFrom, if_pos (by omega : (0 : Int) ≤ -v)]

/-- Witness for C10 on a two-entry history with `N = -1`: the heading shows
`-1` and the rendering drops the first entry. -/
theorem c10_negative_history_count_witness :
    (-1 : Int) < 0 ∧
    load_history [dumps ⟨"user", "hi"⟩, dumps ⟨"assistant", "yo"⟩] none ≠ [] ∧
    print_history "U" "A" [dumps ⟨"user", "hi"⟩, dumps ⟨"assistant", "yo"⟩] (some (-1)) =
      ["## Last " ++ toString (-1 : Int) ++ " messages", "***"] ++
        ((load_history [dumps ⟨"user", "hi"⟩, dumps ⟨"assistant", "yo"⟩] none).drop
            (-(-1 : Int)).toNat).map (fun entry =>
          "**" ++ (if entry.role = "user" then "U" else "A") ++ "**: " ++ entry.content) ++
        ["***"] :=
  ⟨by decide, by decide,
    c10_negative_history_count "U" "A" [dumps ⟨"user", "hi"⟩, dumps ⟨"assistant", "yo"⟩]
      (-1) (by decide) (by decide)⟩
